import Mathlib

/-!
Verification of the am-i-genki badge service core against its specification.

The TypeScript sources are shallowly embedded:
* JavaScript `Date` instants are modelled as `Int` milliseconds since the Unix
  epoch; the `getUTCDate`/`getUTCHours` field accessors are reimplemented with
  the standard civil-calendar conversion (floor division, as ECMAScript does).
* JavaScript strings are modelled as `String`/`List Char`; the case-insensitive
  regex tests of `isBotAccount` act on the lowercased haystack, so they reduce
  to plain substring / suffix tests on the lowercased character list.
* Network effects are modelled by passing the outcome of each outbound fetch
  as an explicit parameter (an environment record), and `async` control flow is
  sequentialised; the final aggregate is order-independent pure summation, so
  this preserves the computed values.
-/

namespace AmIGenki

/-! ### JavaScript `Date` field arithmetic -/

def msPerHour : Int := 3600000

def msPerDay : Int := 86400000

/-- Days since 1970-01-01 for a civil date (proleptic Gregorian),
the standard `days_from_civil` algorithm with floor division. -/
def daysFromCivil (y m d : Int) : Int :=
  let y' := if m ≤ 2 then y - 1 else y
  let era := Int.fdiv y' 400
  let yoe := y' - era * 400
  let mp := Int.emod (m + 9) 12
  let doy := Int.fdiv (153 * mp + 2) 5 + d - 1
  let doe := yoe * 365 + Int.fdiv yoe 4 - Int.fdiv yoe 100 + doy
  era * 146097 + doe - 719468

/-- Civil date (year, month, day) from days since 1970-01-01,
the standard `civil_from_days` algorithm. -/
def civilFromDays (z0 : Int) : Int × Int × Int :=
  let z := z0 + 719468
  let era := Int.fdiv z 146097
  let doe := z - era * 146097
  let yoe := Int.fdiv (doe - Int.fdiv doe 1460 + Int.fdiv doe 36524 - Int.fdiv doe 146096) 365
  let y' := yoe + era * 400
  let doy := doe - (365 * yoe + Int.fdiv yoe 4 - Int.fdiv yoe 100)
  let mp := Int.fdiv (5 * doy + 2) 153
  let d := doy - Int.fdiv (153 * mp + 2) 5 + 1
  let m := mp + (if mp < 10 then 3 else -9)
  (if m ≤ 2 then y' + 1 else y', m, d)

/-- `Date.prototype.getUTCDate` (day of month, 1-31) of an epoch-ms instant. -/
def getUTCDate (t : Int) : Int :=
  (civilFromDays (Int.fdiv t msPerDay)).2.2

/-- `Date.prototype.getUTCHours` (0-23) of an epoch-ms instant. -/
def getUTCHours (t : Int) : Int :=
  Int.emod (Int.fdiv t msPerHour) 24

/-- Full (year, month, day) of an epoch-ms instant, for stating
"calendar date" properties. -/
def utcCivil (t : Int) : Int × Int × Int :=
  civilFromDays (Int.fdiv t msPerDay)

/-- Epoch milliseconds of a UTC civil date plus an hour-of-day,
the inverse used to build concrete fixtures (`Date.UTC`). -/
def msOfUTC (y m d h : Int) : Int :=
  (daysFromCivil y m d * 24 + h) * msPerHour

/-! ### `shouldUpdateCache` (src/unnamed/part_001, lines 7-32)

The code reads the wall clock internally (`new Date()`); the instant is made
an explicit parameter `now`.  `lastUpdated` is the parsed ISO timestamp. -/

def shouldUpdateCache (lastUpdated now : Int) (jstUpdateHour : Int) : Bool :=
  let jstNow := now + 9 * msPerHour
  let jstLastUpdate := lastUpdated + 9 * msPerHour
  if now - lastUpdated > 24 * 60 * 60 * 1000 then
    true
  else if getUTCDate jstNow ≠ getUTCDate jstLastUpdate ∧ getUTCHours jstNow ≥ jstUpdateHour then
    true
  else
    false

/-- What the specification's freshness rule literally says: stale iff the 24h
ceiling is exceeded, or the UTC+9 *calendar dates* (full year-month-day)
differ and the UTC+9 hour of `now` has reached the refresh hour. -/
def specStaleCalendarDate (lastUpdated now H : Int) : Prop :=
  now - lastUpdated > 24 * msPerHour ∨
    (utcCivil (now + 9 * msPerHour) ≠ utcCivil (lastUpdated + 9 * msPerHour) ∧
      getUTCHours (now + 9 * msPerHour) ≥ H)

/-! ### `getHealthStatus` (src/unnamed/part_001, lines 178-190) -/

inductive HealthStatus where
  | healthy
  | moderate
  | inactive
deriving DecidableEq, Repr

def getHealthStatus (commits healthyThreshold moderateThreshold : Int) : HealthStatus :=
  if commits ≥ healthyThreshold then
    .healthy
  else if commits ≥ moderateThreshold then
    .moderate
  else
    .inactive

/-! ### String machinery for `isBotAccount` (src/unnamed/part_001, lines 155-175)

All regexes are either plain substring tests or `$`-anchored suffix tests;
applied (with `/i`) to the already lowercased check string they reduce to
substring / suffix containment on the lowercased character list. -/

/-- Substring test: does `s` contain `p` as a contiguous segment? -/
def containsSeg : List Char → List Char → Bool
  | [], p => p.isEmpty
  | c :: rest, p => p.isPrefixOf (c :: rest) || containsSeg rest p

/-- Suffix test (a `$`-anchored regex). -/
def endsWithSeg (s p : List Char) : Bool :=
  p.isSuffixOf s

/-- Lowercased character list of a string (JS `toLowerCase`, ASCII range). -/
def lowerChars (s : String) : List Char :=
  s.toList.map Char.toLower

/-- The vendor bot name fragments among `botIndicators` (the unanchored
alphabetic regexes `dependabot`, `renovate`, ..., `web-flow`). -/
def vendorBotFragments : List String :=
  ["dependabot", "renovate", "greenkeeper", "github-actions", "codecov", "snyk", "web-flow"]

/-- The eleven `botIndicators` tests, in source order, applied to the
lowercased check string. -/
def botIndicatorTests (s : List Char) : List Bool :=
  (vendorBotFragments.map fun f => containsSeg s (lowerChars f)) ++
    [endsWithSeg s (lowerChars "[bot]"),
     endsWithSeg s (lowerChars "-bot"),
     containsSeg s (lowerChars "bot-"),
     containsSeg s (lowerChars "noreply@github.com")]

/-- `isBotAccount(login?, name?, email?)`.  JS treats a missing field and an
empty string alike under `!x`, so both map to the empty string.  The check
string is the *space-joined* interpolation of the three fields. -/
def isBotAccount (login name email : Option String) : Bool :=
  if login.getD "" = "" ∧ name.getD "" = "" ∧ email.getD "" = "" then
    false
  else
    let checkString := lowerChars ((login.getD "") ++ " " ++ (name.getD "") ++ " " ++ (email.getD ""))
    (botIndicatorTests checkString).any id

/-- What the claim literally says about `isBotAccount`: take the plain
(unseparated) concatenation of the three fields, lowercased; true exactly when
it contains a vendor fragment, ends with `[bot]`, ends with `-bot`, *begins*
with `bot-`, or contains the no-reply bot email domain. -/
def claimBotPlainConcat (login name email : Option String) : Prop :=
  let s := lowerChars ((login.getD "") ++ (name.getD "") ++ (email.getD ""))
  (∃ f ∈ vendorBotFragments, lowerChars f <:+: s) ∨
    lowerChars "[bot]" <:+ s ∨
    lowerChars "-bot" <:+ s ∨
    lowerChars "bot-" <+: s ∨
    lowerChars "noreply@github.com" <:+: s

/-- The amended description of `isBotAccount`: the three fields are joined
with single spaces before lowercasing, `bot-` is matched as a *substring*
(the source regex `bot-` carries no anchor), and when all three fields are
missing or empty the result is false. -/
def specBotAmended (login name email : Option String) : Prop :=
  ¬(login.getD "" = "" ∧ name.getD "" = "" ∧ email.getD "" = "") ∧
    (let s := lowerChars ((login.getD "") ++ " " ++ (name.getD "") ++ " " ++ (email.getD ""))
     (∃ f ∈ vendorBotFragments, lowerChars f <:+: s) ∨
       lowerChars "[bot]" <:+ s ∨
       lowerChars "-bot" <:+ s ∨
       lowerChars "bot-" <:+: s ∨
       lowerChars "noreply@github.com" <:+: s)

/-! ### Provider response shapes (src/src/types.ts) -/

/-- A commit list entry: `author?.login`, `commit.author.name`,
`commit.author.email`, and the parent sha list. -/
structure GitHubCommit where
  author : Option String
  name : String
  email : String
  parents : List String

structure GitHubRepo where
  name : String
  updated_at : Int

structure GitHubOrg where
  login : String

/-- The service configuration (`getConfig`, src/unnamed/part_001). -/
structure Config where
  username : String
  healthyThreshold : Int
  moderateThreshold : Int
  monitoringDays : Int
  cacheTTL : Int
  jstUpdateHour : Int
  githubToken : Option String
  includeOrgRepos : Bool
  maxReposPerOrg : Int
  excludeRepos : List String
  excludeOrgs : List String

/-! ### `getRepoCommits` (src/unnamed/part_000, lines 18-57) -/

/-- The commit filter inside `getRepoCommits`: keep a commit iff it is not a
bot account, not a merge commit (two or more parents), and its author login
strictly equals the monitored username (`===`, so an absent author never
matches). -/
def commitIncluded (username : String) (commit : GitHubCommit) : Bool :=
  let isMergeCommit : Bool := decide (commit.parents.length ≥ 2)
  !(isBotAccount commit.author (some commit.name) (some commit.email)) &&
    !isMergeCommit &&
    (commit.author == some username)

/-- Outcome of the commits fetch issued by `getRepoCommits`: the retrying
fetch may throw after exhausting its budget, the response may be not-ok, the
body may fail to parse into a commit array, or it parses fine. -/
inductive CommitsQueryOutcome where
  | thrown (msg : String)
  | notOk (status : Nat)
  | malformed (msg : String)
  | ok (commits : List GitHubCommit)

/-- The `try` block of `getRepoCommits`: it either throws (`.error`), returns
a count (`.ok (some n)`), or completes without returning (`.ok none`, the
not-ok response case, falling through to the trailing `return 0`). -/
def getRepoCommitsTry (username : String) (outcome : CommitsQueryOutcome) :
    Except String (Option Nat) :=
  match outcome with
  | .thrown msg => .error msg
  | .malformed msg => .error msg
  | .notOk _ => .ok none
  | .ok commits => .ok (some (commits.filter (commitIncluded username)).length)

/-- `getRepoCommits` proper: the `catch` logs and falls through, so every
path degrades to the trailing `return 0`. -/
def getRepoCommits (username : String) (outcome : CommitsQueryOutcome) : Nat :=
  match getRepoCommitsTry username outcome with
  | .ok (some n) => n
  | .ok none => 0
  | .error _ => 0

/-! ### The aggregation engine (src/unnamed/part_000, lines 60-279)

Each outbound fetch is abstracted by the `ProviderEnv` record giving its
outcome; `async`/batch concurrency is sequentialised (the final aggregate is
pure order-independent summation).  The per-batch sleeps only pace requests
and do not affect any computed value, so they are not modelled. -/

/-- Outcome of a JSON-list fetch: thrown after retries (or a body that failed
to parse, which likewise propagates as an exception), a not-ok response, or a
parsed list. -/
inductive FetchRes (α : Type) where
  | thrown (msg : String)
  | notOk (status : Nat)
  | ok (val : α)

/-- The provider as seen by one aggregation run.  `commitsQuery` gives, per
(owner, repository name) pair, the outcome of the commits fetch that
`getRepoCommits` performs for it (username, window and token are fixed for
the run). -/
structure ProviderEnv where
  ownedRepos : FetchRes (List GitHubRepo)
  orgs : FetchRes (List GitHubOrg)
  orgRepos : String → FetchRes (List GitHubRepo)
  commitsQuery : String → String → CommitsQueryOutcome

/-- Inner loop of the `allOrgRepos` accumulation for one organization's
repository list: `break` once the accumulator reaches `maxRepos`, otherwise
push pairs passing the window/exclusion filter. -/
def addOrgRepos (maxRepos : Nat) (since : Int) (excludeRepos : List String)
    (org : String) : List GitHubRepo → List (String × String) → List (String × String)
  | [], acc => acc
  | repo :: rest, acc =>
    if acc.length ≥ maxRepos then
      acc
    else if repo.updated_at ≥ since ∧ ¬(excludeRepos.contains repo.name) then
      addOrgRepos maxRepos since excludeRepos org rest (acc ++ [(org, repo.name)])
    else
      addOrgRepos maxRepos since excludeRepos org rest acc

/-- Outer loop of the `allOrgRepos` accumulation over the per-organization
fetch results (`null` results are skipped). -/
def buildAllOrgRepos (maxRepos : Nat) (since : Int) (excludeRepos : List String) :
    List (Option (String × List GitHubRepo)) → List (String × String) → List (String × String)
  | [], acc => acc
  | none :: rest, acc => buildAllOrgRepos maxRepos since excludeRepos rest acc
  | some (org, repos) :: rest, acc =>
    buildAllOrgRepos maxRepos since excludeRepos rest
      (addOrgRepos maxRepos since excludeRepos org repos acc)

/-- Helper for splitting a work list into consecutive batches, the effect of
the source's `slice(i, min(i + batchSize, length))` stepping (for the batch
sizes 3 and 5 actually used). -/
def chunkAux {α : Type} (batchSize : Nat) : List α → List α → List (List α)
  | [], cur => if cur.isEmpty then [] else [cur.reverse]
  | x :: rest, cur =>
    if cur.length + 1 = batchSize then
      (x :: cur).reverse :: chunkAux batchSize rest []
    else
      chunkAux batchSize rest (x :: cur)

def chunks {α : Type} (batchSize : Nat) (l : List α) : List (List α) :=
  chunkAux batchSize l []

/-- The result-collection step shared by both passes' inner loops
(`for (const result of results)`): a positive count contributes its commits
and increments the processed counter. -/
def countStep (cp : Nat × Nat) (r : Nat) : Nat × Nat :=
  if r > 0 then (cp.1 + r, cp.2 + 1) else cp

/-- The organization pass additionally re-checks the cap before each
increment (`if (result && processedOrgRepos < maxRepos)`). -/
def countStepCapped (maxRepos : Nat) (cp : Nat × Nat) (r : Nat) : Nat × Nat :=
  if r > 0 ∧ cp.2 < maxRepos then (cp.1 + r, cp.2 + 1) else cp

/-- The organization-pass batch loop, over the batch list.  Returns
(totalOrgCommits, processedOrgRepos, number of commit-history queries
issued).  The loop guard re-checks `processedOrgRepos < maxRepos` before each
batch; a repository contributes (and is counted as processed) only when its
count is positive and the cap has not been reached. -/
def orgBatchLoop (repoCommits : String → String → Nat) (maxRepos : Nat)
    (batches : List (List (String × String))) (totalCommits processed : Nat) :
    Nat × Nat × Nat :=
  match batches with
  | [] => (totalCommits, processed, 0)
  | batch :: restBatches =>
    if processed < maxRepos then
      let results := batch.map fun pr => repoCommits pr.1 pr.2
      let folded := results.foldl (countStepCapped maxRepos) (totalCommits, processed)
      let recNext := orgBatchLoop repoCommits maxRepos restBatches folded.1 folded.2
      (recNext.1, recNext.2.1, batch.length + recNext.2.2)
    else
      (totalCommits, processed, 0)

/-- `getOrgRepoCommits` (src/unnamed/part_000, lines 60-184), instrumented
with the number of commit-history queries it issues. -/
structure OrgPassResult where
  commits : Nat
  repos : Nat
  queried : Nat

def getOrgRepoCommits (username : String) (config : Config) (since : Int)
    (maxRepos : Nat) (env : ProviderEnv) : OrgPassResult :=
  match env.orgs with
  | .thrown _ => ⟨0, 0, 0⟩
  | .notOk _ => ⟨0, 0, 0⟩
  | .ok orgs =>
    let filteredOrgs := orgs.filter fun org => !(config.excludeOrgs.contains org.login)
    let orgReposResults := filteredOrgs.map fun org =>
      match env.orgRepos org.login with
      | .ok repos => some (org.login, repos)
      | _ => none
    let allOrgRepos := buildAllOrgRepos maxRepos since config.excludeRepos orgReposResults []
    let batchSize := if config.githubToken.isSome then 5 else 3
    let res := orgBatchLoop
      (fun owner repoName => getRepoCommits username (env.commitsQuery owner repoName))
      maxRepos (chunks batchSize allOrgRepos) 0 0
    ⟨res.1, res.2.1, res.2.2⟩

/-- The owned-pass batch loop (src/unnamed/part_000, lines 223-262), over the
batch list.  Unlike the organization pass there is no cap guard: every
repository in `reposToProcess` is queried, and every positive count
contributes. -/
def ownedBatchLoop (repoCommits : String → Nat)
    (batches : List (List GitHubRepo)) (totalCommits owned : Nat) : Nat × Nat × Nat :=
  match batches with
  | [] => (totalCommits, owned, 0)
  | batch :: restBatches =>
    let results := batch.map fun repo => repoCommits repo.name
    let folded := results.foldl countStep (totalCommits, owned)
    let recNext := ownedBatchLoop repoCommits restBatches folded.1 folded.2
    (recNext.1, recNext.2.1, batch.length + recNext.2.2)

/-- An aggregation result, instrumented with how many commit-history queries
each pass issued. -/
structure AggResult where
  commits : Nat
  owned : Nat
  org : Nat
  ownedQueried : Nat
  orgQueried : Nat

/-- The owned-repository pass of `getCommitCount` (lines 200-263): filter the
owned repositories by exclusion list and window, cap at 20, and run the
batch loop.  Returns (totalCommits, processedRepos, queries issued); anything
but an ok response leaves all three at zero. -/
def ownedPass (username : String) (since : Int) (config : Config)
    (env : ProviderEnv) : Nat × Nat × Nat :=
  match env.ownedRepos with
  | .ok repos =>
    let reposToProcess :=
      (repos.filter fun (repo : GitHubRepo) =>
        !(config.excludeRepos.contains repo.name) && decide (repo.updated_at ≥ since)).take 20
    let batchSize := if config.githubToken.isSome then 5 else 3
    ownedBatchLoop
      (fun repoName => getRepoCommits username (env.commitsQuery username repoName))
      (chunks batchSize reposToProcess) 0 0
  | _ => (0, 0, 0)

/-- `getCommitCount` (src/unnamed/part_000, lines 187-279).  The code
computes `since` from the wall clock; here it is an explicit parameter.  The
owned-repos fetch sits outside any `try`, so its failure propagates
(`.error`).  The dead `processedRepos >= 20` test inside the filter callback
(processedRepos is still 0 when the filter runs) is omitted. -/
def getCommitCount (username : String) (since : Int) (config : Config)
    (env : ProviderEnv) : Except String AggResult :=
  match env.ownedRepos with
  | .thrown msg => .error msg
  | _ =>
    let op := ownedPass username since config env
    if config.includeOrgRepos ∧ op.2.1 < 20 then
      let orgResult := getOrgRepoCommits username config since (20 - op.2.1) env
      .ok ⟨op.1 + orgResult.commits, op.2.1, orgResult.repos, op.2.2, orgResult.queried⟩
    else
      .ok ⟨op.1, op.2.1, 0, op.2.2, 0⟩

/-! ### `fetchWithRetry` (src/unnamed/part_001, lines 107-152)

The environment gives each attempt's outcome; the model returns the result
(a returned response, the last captured error rethrown, or the synthetic
exhausted-retries error) together with the list of sleep durations in
milliseconds, in order.  A present `retry-after` header is modelled as its
parsed numeric value. -/

inductive AttemptOutcome where
  | response (status : Nat) (retryAfter : Option Nat)
  | netError (msg : String)

inductive FetchRetryResult where
  | returned (status : Nat) (retryAfter : Option Nat)
  | threwLast (msg : String)
  | threwSynthetic

def fetchRetryLoop (attempts : Nat → AttemptOutcome) (initialDelay : Nat) :
    (i : Nat) → (remaining : Nat) → (lastError : Option String) →
    FetchRetryResult × List Nat
  | _, 0, lastError =>
    (match lastError with
     | some msg => (.threwLast msg, [])
     | none => (.threwSynthetic, []))
  | i, remaining + 1, lastError =>
    match attempts i with
    | .netError msg =>
      let waitTime := initialDelay * 2 ^ i
      let rest := fetchRetryLoop attempts initialDelay (i + 1) remaining (some msg)
      (rest.1, waitTime :: rest.2)
    | .response status retryAfter =>
      if status = 429 ∨ status = 403 then
        let waitTime :=
          match retryAfter with
          | some ra => ra * 1000
          | none => initialDelay * 2 ^ i
        let rest := fetchRetryLoop attempts initialDelay (i + 1) remaining lastError
        (rest.1, waitTime :: rest.2)
      else if status ≥ 500 then
        let waitTime := initialDelay * 2 ^ i
        let rest := fetchRetryLoop attempts initialDelay (i + 1) remaining lastError
        (rest.1, waitTime :: rest.2)
      else
        (.returned status retryAfter, [])

def fetchWithRetry (attempts : Nat → AttemptOutcome) (maxRetries initialDelay : Nat) :
    FetchRetryResult × List Nat :=
  fetchRetryLoop attempts initialDelay 0 maxRetries none

/-! ### Cache controller (src/src/index.ts `/badge` handler) and background
revalidation (src/unnamed/part_001, `updateCacheInBackground`) -/

/-- The persisted snapshot (`CacheData`); `lastUpdated` is the computation
instant in epoch ms. -/
structure CacheData where
  commits : Nat
  status : HealthStatus
  lastUpdated : Int
  owned : Nat
  org : Nat

inductive BadgeResponse where
  | misconfigured
  | botRejected
  | svg (data : CacheData)
  | errorResponse

/-- Observable outcome of one `/badge` request: the response, the snapshot
written synchronously (awaited before the response is built), whether a
background revalidation was scheduled via `waitUntil`, and whether the
aggregation engine ran synchronously (the only way provider calls happen on
the request path). -/
structure BadgeOutcome where
  response : BadgeResponse
  storeWrite : Option CacheData
  scheduledBackground : Bool
  ranAggregation : Bool

def badgeHandler (config : Config) (env : ProviderEnv) (cached : Option CacheData)
    (now since : Int) : BadgeOutcome :=
  if config.username = "" then
    ⟨.misconfigured, none, false, false⟩
  else
    match cached with
    | some data =>
      ⟨.svg data, none, shouldUpdateCache data.lastUpdated now config.jstUpdateHour, false⟩
    | none =>
      if isBotAccount (some config.username) none none then
        ⟨.botRejected, none, false, false⟩
      else
        match getCommitCount config.username since config env with
        | .error _ => ⟨.errorResponse, none, false, true⟩
        | .ok result =>
          let status :=
            getHealthStatus result.commits config.healthyThreshold config.moderateThreshold
          let data : CacheData := ⟨result.commits, status, now, result.owned, result.org⟩
          ⟨.svg data, some data, false, true⟩

/-- Observable outcome of one background revalidation run. -/
structure BackgroundOutcome where
  storeWrite : Option CacheData
  ranAggregation : Bool

def updateCacheInBackground (config : Config) (env : ProviderEnv) (now since : Int) :
    BackgroundOutcome :=
  if isBotAccount (some config.username) none none then
    ⟨none, false⟩
  else
    match getCommitCount config.username since config env with
    | .error _ => ⟨none, true⟩
    | .ok result =>
      let status :=
        getHealthStatus result.commits config.healthyThreshold config.moderateThreshold
      ⟨some ⟨result.commits, status, now, result.owned, result.org⟩, true⟩

/-! ## Theorems -/

/-- Substring containment computed by `containsSeg` agrees with `List.IsInfix`. -/
theorem containsSeg_iff (s p : List Char) : containsSeg s p = true ↔ p <:+: s := by
  induction s with
  | nil => simp [containsSeg]
  | cons c rest ih => simp [containsSeg, ih, List.infix_cons_iff]

/-- Claim C9: `getHealthStatus` is healthy iff the count reaches the healthy
threshold, moderate iff it reaches only the moderate threshold, else
inactive, with inclusive boundaries; including the spec's fixtures for
thresholds (15, 5). -/
theorem C9_getHealthStatus_tiers (c hi mid : Int) :
    (getHealthStatus c hi mid = .healthy ↔ c ≥ hi) ∧
    (getHealthStatus c hi mid = .moderate ↔ (c < hi ∧ c ≥ mid)) ∧
    (getHealthStatus c hi mid = .inactive ↔ (c < hi ∧ c < mid)) ∧
    getHealthStatus 20 15 5 = .healthy ∧
    getHealthStatus 15 15 5 = .healthy ∧
    getHealthStatus 10 15 5 = .moderate ∧
    getHealthStatus 5 15 5 = .moderate ∧
    getHealthStatus 3 15 5 = .inactive := by
  refine ⟨?_, ?_, ?_, by decide, by decide, by decide, by decide, by decide⟩ <;>
    unfold getHealthStatus <;>
    by_cases h1 : c ≥ hi <;> by_cases h2 : c ≥ mid <;>
    simp [h1, h2] <;> omega

/-- Claim C2, counterexample: the code compares `getUTCDate` (day of month),
not the full calendar date.  With `lastUpdated` = 2024-02-15 12:00 JST and
`now` = 2024-01-15 12:00 JST (refresh hour 8), the 24h ceiling is not
exceeded, the UTC+9 calendar dates differ and the UTC+9 hour 12 ≥ 8, so the
claim demands `true`; the code sees equal days-of-month (15 = 15) and
returns `false`. -/
theorem C2_counterexample :
    shouldUpdateCache (msOfUTC 2024 2 15 3) (msOfUTC 2024 1 15 3) 8 = false ∧
    specStaleCalendarDate (msOfUTC 2024 2 15 3) (msOfUTC 2024 1 15 3) 8 := by
  refine ⟨by decide, ?_⟩
  unfold specStaleCalendarDate
  decide

/-- Claim C2 (amended): `shouldUpdateCache` returns true exactly when
`now − lastUpdated` exceeds 24 hours, or the UTC+9 *day-of-month* of `now`
differs from that of `lastUpdated` and the UTC+9 hour of `now` is ≥ the
refresh hour (day-of-month coincides with the calendar date whenever
`lastUpdated` is not in the future, since the 24h ceiling already covers
gaps of a day or more); with the spec's fixtures: `lastUpdated` yesterday
23:00 JST, refresh hour 8, `now` today 09:00 JST is stale and `now` today
07:00 JST is fresh. -/
theorem C2_shouldUpdateCache_rule (lastUpdated now H : Int) :
    (shouldUpdateCache lastUpdated now H = true ↔
      (now - lastUpdated > 24 * 60 * 60 * 1000 ∨
        (getUTCDate (now + 9 * msPerHour) ≠ getUTCDate (lastUpdated + 9 * msPerHour) ∧
          getUTCHours (now + 9 * msPerHour) ≥ H))) ∧
    shouldUpdateCache (msOfUTC 2024 5 19 14) (msOfUTC 2024 5 20 0) 8 = true ∧
    shouldUpdateCache (msOfUTC 2024 5 19 14) (msOfUTC 2024 5 19 22) 8 = false := by
  refine ⟨?_, by decide, by decide⟩
  unfold shouldUpdateCache
  by_cases h1 : now - lastUpdated > 24 * 60 * 60 * 1000
  · simp [h1]
  · by_cases h2 : getUTCDate (now + 9 * msPerHour) ≠ getUTCDate (lastUpdated + 9 * msPerHour) ∧
        getUTCHours (now + 9 * msPerHour) ≥ H
    · simp [h1, h2]
    · simp [h1, h2]

/-- Claim C4, counterexample: the claim describes the check string as the
plain concatenation of the fields and `bot-` as a prefix test.  The code
joins the fields with spaces and tests `bot-` as a substring.  So for login
`robot-arm` the code returns true while the claim's predicate is false, and
for display name `x-bot` (login and email absent) the claim's predicate is
true (the concatenation ends in `-bot`) while the code returns false (the
check string is ` x-bot `, whose last character is a space). -/
theorem C4_counterexample :
    (isBotAccount (some "robot-arm") none none = true ∧
      ¬claimBotPlainConcat (some "robot-arm") none none) ∧
    (isBotAccount none (some "x-bot") none = false ∧
      claimBotPlainConcat none (some "x-bot") none) := by
  constructor
  · refine ⟨by decide, ?_⟩
    unfold claimBotPlainConcat
    decide
  · refine ⟨by decide, ?_⟩
    unfold claimBotPlainConcat
    decide

/-- Claim C4 (amended): `isBotAccount` is true exactly when the three fields,
joined by single spaces (missing → empty) and lowercased, contain a vendor
bot fragment, end with `[bot]`, end with `-bot`, *contain* `bot-`, or
contain the no-reply bot email domain — except that when all three fields
are missing or empty the result is false. -/
theorem C4_isBotAccount_rule (login name email : Option String) :
    isBotAccount login name email = true ↔ specBotAmended login name email := by
  unfold isBotAccount specBotAmended botIndicatorTests vendorBotFragments
  by_cases hg : login.getD "" = "" ∧ name.getD "" = "" ∧ email.getD "" = ""
  · simp [hg]
  · simp [hg, containsSeg_iff, endsWithSeg]
    tauto

/-- Claim C3: the commit filter inside `getRepoCommits` keeps a commit
exactly when its author login equals the monitored identity, its parent
count is at most one, and its identity fields match no bot pattern;
equivalently it drops a commit exactly when some bot pattern matches, or the
parent count is at least two, or the author login differs. -/
theorem C3_commit_filter (username : String) (commit : GitHubCommit) :
    (commitIncluded username commit = true ↔
      (commit.author = some username ∧ commit.parents.length ≤ 1 ∧
        isBotAccount commit.author (some commit.name) (some commit.email) = false)) ∧
    (commitIncluded username commit = false ↔
      (isBotAccount commit.author (some commit.name) (some commit.email) = true ∨
        commit.parents.length ≥ 2 ∨ commit.author ≠ some username)) := by
  have h : commitIncluded username commit = true ↔
      (commit.author = some username ∧ commit.parents.length ≤ 1 ∧
        isBotAccount commit.author (some commit.name) (some commit.email) = false) := by
    constructor
    · intro ht
      simp only [commitIncluded, Bool.and_eq_true, Bool.not_eq_true', beq_iff_eq,
        decide_eq_false_iff_not] at ht
      obtain ⟨⟨hb, hm⟩, ha⟩ := ht
      exact ⟨ha, by omega, hb⟩
    · rintro ⟨ha, hm, hb⟩
      simp only [commitIncluded, Bool.and_eq_true, Bool.not_eq_true', beq_iff_eq,
        decide_eq_false_iff_not]
      exact ⟨⟨hb, by omega⟩, ha⟩
  refine ⟨h, ?_⟩
  rw [← Bool.not_eq_true, h]
  constructor
  · intro hn
    by_cases ha : commit.author = some username
    · by_cases hm : commit.parents.length ≥ 2
      · exact .inr (.inl hm)
      · cases hb : isBotAccount commit.author (some commit.name) (some commit.email) with
        | true => exact .inl rfl
        | false => exact absurd ⟨ha, by omega, hb⟩ hn
    · exact .inr (.inr ha)
  · rintro (hb | hm | ha) ⟨ha2, hm2, hb2⟩
    · simp [hb] at hb2
    · omega
    · exact ha ha2

/-- Claim C7: `getRepoCommits` never propagates an error.  When the fetch
threw (after the retry budget), the response was not ok, or the body was
malformed, it returns zero; in general, whenever the `try` block throws, the
result degrades to zero. -/
theorem C7_getRepoCommits_degrades (username msg : String) (status : Nat)
    (outcome : CommitsQueryOutcome) :
    getRepoCommits username (.thrown msg) = 0 ∧
    getRepoCommits username (.notOk status) = 0 ∧
    getRepoCommits username (.malformed msg) = 0 ∧
    (getRepoCommitsTry username outcome = .error msg →
      getRepoCommits username outcome = 0) := by
  refine ⟨rfl, rfl, rfl, ?_⟩
  intro h
  unfold getRepoCommits
  rw [h]

/-- Witness for C7 at a concrete unreachable repository. -/
theorem C7_witness : getRepoCommits "alice" (.thrown "connect ETIMEDOUT") = 0 :=
  (C7_getRepoCommits_degrades "alice" "connect ETIMEDOUT" 404
    (.thrown "connect ETIMEDOUT")).2.2.2 rfl

/-! ### Concrete fixtures used by witnesses and counterexamples -/

/-- A default-like configuration: user `alice`, thresholds 15/5, refresh hour
8, no token, organization repositories included, no exclusions. -/
def cfg20 : Config :=
  ⟨"alice", 15, 5, 14, 86400, 8, none, true, 5, [], []⟩

/-- The same configuration for the monitored identity `dependabot`, which the
bot check flags. -/
def cfgBot : Config :=
  ⟨"dependabot", 15, 5, 14, 86400, 8, none, true, 5, [], []⟩

/-- A provider with no repositories at all: the aggregation succeeds with an
all-zero result. -/
def env0 : ProviderEnv :=
  ⟨.ok [], .ok [], fun _ => .notOk 500, fun _ _ => .ok []⟩

/-- A provider with 20 distinct recently-updated owned repositories, none of
which has qualifying commits, plus one organization with one recently-updated
public repository. -/
def env21 : ProviderEnv :=
  ⟨.ok ((List.range 20).map fun i => ⟨"r" ++ toString i, 1⟩),
   .ok [⟨"orgx"⟩],
   fun _ => .ok [⟨"s", 1⟩],
   fun _ _ => .ok []⟩

/-- A cached snapshot computed at 2024-05-19 23:00 JST. -/
def snap0 : CacheData :=
  ⟨7, .moderate, msOfUTC 2024 5 19 14, 1, 0⟩

/-- Claim C6: the retry contract of `fetchWithRetry`.  On each attempt: a 429
or 403 response sleeps `retry-after × 1000` ms when the hint is present, else
`initialDelay × 2^attempt` ms, and retries; a 5xx response and a network
failure sleep the exponential backoff and retry (the network failure also
captures the error); any other status is returned immediately; an exhausted
budget throws the last captured error, or the synthetic exhausted-retries
error when none was captured. -/
theorem C6_fetchWithRetry_contract (attempts : Nat → AttemptOutcome)
    (maxRetries initialDelay i remaining : Nat) (lastError : Option String)
    (status : Nat) (retryAfter : Option Nat) (ra : Nat) (msg : String) :
    (fetchWithRetry attempts maxRetries initialDelay =
      fetchRetryLoop attempts initialDelay 0 maxRetries none) ∧
    (attempts i = .response status (some ra) → status = 429 ∨ status = 403 →
      fetchRetryLoop attempts initialDelay i (remaining + 1) lastError =
        ((fetchRetryLoop attempts initialDelay (i + 1) remaining lastError).1,
          ra * 1000 :: (fetchRetryLoop attempts initialDelay (i + 1) remaining lastError).2)) ∧
    (attempts i = .response status none → status = 429 ∨ status = 403 →
      fetchRetryLoop attempts initialDelay i (remaining + 1) lastError =
        ((fetchRetryLoop attempts initialDelay (i + 1) remaining lastError).1,
          initialDelay * 2 ^ i ::
            (fetchRetryLoop attempts initialDelay (i + 1) remaining lastError).2)) ∧
    (attempts i = .response status retryAfter → status ≥ 500 →
      fetchRetryLoop attempts initialDelay i (remaining + 1) lastError =
        ((fetchRetryLoop attempts initialDelay (i + 1) remaining lastError).1,
          initialDelay * 2 ^ i ::
            (fetchRetryLoop attempts initialDelay (i + 1) remaining lastError).2)) ∧
    (attempts i = .netError msg →
      fetchRetryLoop attempts initialDelay i (remaining + 1) lastError =
        ((fetchRetryLoop attempts initialDelay (i + 1) remaining (some msg)).1,
          initialDelay * 2 ^ i ::
            (fetchRetryLoop attempts initialDelay (i + 1) remaining (some msg)).2)) ∧
    (attempts i = .response status retryAfter → ¬(status = 429 ∨ status = 403) →
      status < 500 →
      fetchRetryLoop attempts initialDelay i (remaining + 1) lastError =
        (.returned status retryAfter, [])) ∧
    (fetchRetryLoop attempts initialDelay i 0 (some msg) = (.threwLast msg, [])) ∧
    (fetchRetryLoop attempts initialDelay i 0 none = (.threwSynthetic, [])) := by
  refine ⟨rfl, ?_, ?_, ?_, ?_, ?_, rfl, rfl⟩
  · intro h hs
    simp [fetchRetryLoop, h, hs]
  · intro h hs
    simp [fetchRetryLoop, h, hs]
  · intro h hs
    have hns : ¬(status = 429 ∨ status = 403) := by omega
    simp [fetchRetryLoop, h, hns, hs]
  · intro h
    simp [fetchRetryLoop, h]
  · intro h hns hlt
    have h5 : ¬(status ≥ 500) := by omega
    simp [fetchRetryLoop, h, hns, h5]

/-- Witness for C6: a rate-limited first attempt with `retry-after: 7` sleeps
7000 ms and retries; an exhausted budget with a captured network error throws
that error. -/
theorem C6_witness :
    fetchRetryLoop (fun _ => AttemptOutcome.response 429 (some 7)) 500 0 3 none =
      ((fetchRetryLoop (fun _ => AttemptOutcome.response 429 (some 7)) 500 1 2 none).1,
        7 * 1000 ::
          (fetchRetryLoop (fun _ => AttemptOutcome.response 429 (some 7)) 500 1 2 none).2) ∧
    fetchRetryLoop (fun _ => AttemptOutcome.response 429 (some 7)) 500 4 0
        (some "ECONNRESET") =
      (.threwLast "ECONNRESET", []) :=
  ⟨(C6_fetchWithRetry_contract (fun _ => .response 429 (some 7)) 3 500 0 2 none 429
      (some 7) 7 "ECONNRESET").2.1 rfl (Or.inl rfl),
   (C6_fetchWithRetry_contract (fun _ => .response 429 (some 7)) 3 500 4 2 none 429
      (some 7) 7 "ECONNRESET").2.2.2.2.2.2.1⟩

/-- Claim C5: the three cache states of the `/badge` endpoint.  Absent → the
aggregation runs synchronously and the new snapshot is both persisted and
served; fresh → the stored snapshot is served with no aggregation, no write
and no background run; stale → the stored (old) snapshot is served by the
same outcome that schedules the background recomputation. -/
theorem C5_badge_cache_modes (config : Config) (env : ProviderEnv)
    (cached : CacheData) (now since : Int) (result : AggResult)
    (hu : config.username ≠ "")
    (hbot : isBotAccount (some config.username) none none = false)
    (hagg : getCommitCount config.username since config env = .ok result) :
    (∃ d : CacheData,
      badgeHandler config env none now since = ⟨.svg d, some d, false, true⟩ ∧
        d.commits = result.commits ∧
        d.status = getHealthStatus result.commits config.healthyThreshold
          config.moderateThreshold) ∧
    (shouldUpdateCache cached.lastUpdated now config.jstUpdateHour = false →
      badgeHandler config env (some cached) now since =
        ⟨.svg cached, none, false, false⟩) ∧
    (shouldUpdateCache cached.lastUpdated now config.jstUpdateHour = true →
      badgeHandler config env (some cached) now since =
        ⟨.svg cached, none, true, false⟩) := by
  refine ⟨?_, ?_, ?_⟩
  · refine ⟨⟨result.commits,
      getHealthStatus result.commits config.healthyThreshold config.moderateThreshold,
      now, result.owned, result.org⟩, ?_, rfl, rfl⟩
    simp [badgeHandler, hu, hbot, hagg]
  · intro hf
    simp [badgeHandler, hu, hf]
  · intro hs
    simp [badgeHandler, hu, hs]

/-- Witness for C5: concrete runs of the handler for the absent, fresh
(today 07:00 JST) and stale (today 09:00 JST) states. -/
theorem C5_witness :
    (∃ d : CacheData,
      badgeHandler cfg20 env0 none (msOfUTC 2024 5 20 0) 0 = ⟨.svg d, some d, false, true⟩ ∧
        d.commits = 0 ∧
        d.status = getHealthStatus 0 cfg20.healthyThreshold cfg20.moderateThreshold) ∧
    badgeHandler cfg20 env0 (some snap0) (msOfUTC 2024 5 19 22) 0 =
      ⟨.svg snap0, none, false, false⟩ ∧
    badgeHandler cfg20 env0 (some snap0) (msOfUTC 2024 5 20 0) 0 =
      ⟨.svg snap0, none, true, false⟩ :=
  ⟨(C5_badge_cache_modes cfg20 env0 snap0 (msOfUTC 2024 5 20 0) 0 ⟨0, 0, 0, 0, 0⟩
      (by decide) (by decide) (by rfl)).1,
   (C5_badge_cache_modes cfg20 env0 snap0 (msOfUTC 2024 5 19 22) 0 ⟨0, 0, 0, 0, 0⟩
      (by decide) (by decide) (by rfl)).2.1 (by decide),
   (C5_badge_cache_modes cfg20 env0 snap0 (msOfUTC 2024 5 20 0) 0 ⟨0, 0, 0, 0, 0⟩
      (by decide) (by decide) (by rfl)).2.2 (by decide)⟩

/-- Claim C8: when the monitored identity itself is flagged by the
login-only bot check, the cold-start `/badge` path rejects the request with
no aggregation and no store write, and the background revalidation returns
silently with no aggregation and no store write. -/
theorem C8_bot_identity_paths (config : Config) (env : ProviderEnv) (now since : Int)
    (hu : config.username ≠ "")
    (hbot : isBotAccount (some config.username) none none = true) :
    badgeHandler config env none now since = ⟨.botRejected, none, false, false⟩ ∧
    updateCacheInBackground config env now since = ⟨none, false⟩ := by
  constructor
  · simp [badgeHandler, hu, hbot]
  · simp [updateCacheInBackground, hbot]

/-- Witness for C8 with the flagged identity `dependabot`. -/
theorem C8_witness :
    badgeHandler cfgBot env0 none 0 0 = ⟨.botRejected, none, false, false⟩ ∧
    updateCacheInBackground cfgBot env0 0 0 = ⟨none, false⟩ :=
  C8_bot_identity_paths cfgBot env0 0 0 (by decide) (by decide)

/-! ### Bounds on the aggregation engine (for claims C1 and C10) -/

/-- The batches produced by `chunkAux` cover exactly the pending work list. -/
theorem chunkAux_sum_lengths {α : Type} (batchSize : Nat) :
    ∀ (l cur : List α),
      ((chunkAux batchSize l cur).map List.length).sum = cur.length + l.length := by
  intro l
  induction l with
  | nil =>
    intro cur
    cases cur <;> simp [chunkAux]
  | cons x rest ih =>
    intro cur
    by_cases h : cur.length + 1 = batchSize
    · simp [chunkAux, h, ih]
      omega
    · have hx := ih (x :: cur)
      simp only [List.length_cons] at hx
      simp [chunkAux, h, hx]
      omega

/-- Folding the owned-pass collection step: the processed counter grows by at
most one per result, and every increment is paid for by at least one commit. -/
theorem countStep_foldl_spec : ∀ (results : List Nat) (c p : Nat),
    p ≤ (results.foldl countStep (c, p)).2 ∧
    (results.foldl countStep (c, p)).2 ≤ p + results.length ∧
    (results.foldl countStep (c, p)).2 + c ≤ (results.foldl countStep (c, p)).1 + p := by
  intro results
  induction results with
  | nil => intro c p; refine ⟨Nat.le_refl p, by simp, by simp only [List.foldl_nil]; omega⟩
  | cons r rest ih =>
    intro c p
    simp only [List.foldl_cons, List.length_cons]
    by_cases hr : r > 0
    · simp only [countStep, if_pos hr]
      obtain ⟨h1, h2, h3⟩ := ih (c + r) (p + 1)
      exact ⟨by omega, by omega, by omega⟩
    · simp only [countStep, if_neg hr]
      obtain ⟨h1, h2, h3⟩ := ih c p
      exact ⟨by omega, by omega, by omega⟩

/-- Folding the organization-pass collection step additionally never pushes
the processed counter beyond the cap. -/
theorem countStepCapped_foldl_spec (m : Nat) : ∀ (results : List Nat) (c p : Nat),
    p ≤ (results.foldl (countStepCapped m) (c, p)).2 ∧
    (results.foldl (countStepCapped m) (c, p)).2 ≤ max p m ∧
    (results.foldl (countStepCapped m) (c, p)).2 + c ≤
      (results.foldl (countStepCapped m) (c, p)).1 + p := by
  intro results
  induction results with
  | nil => intro c p; simp; omega
  | cons r rest ih =>
    intro c p
    simp only [List.foldl_cons]
    by_cases hr : r > 0 ∧ p < m
    · simp only [countStepCapped, if_pos hr]
      obtain ⟨h1, h2, h3⟩ := ih (c + r) (p + 1)
      obtain ⟨hr1, hpm⟩ := hr
      exact ⟨by omega, by omega, by omega⟩
    · simp only [countStepCapped, if_neg hr]
      obtain ⟨h1, h2, h3⟩ := ih c p
      exact ⟨by omega, by omega, by omega⟩

/-- Invariants of the owned-pass batch loop: it queries every pending
repository exactly once, contributions never exceed queries, and each
contribution carries at least one commit. -/
theorem ownedBatchLoop_spec (f : String → Nat) :
    ∀ (batches : List (List GitHubRepo)) (c p : Nat),
      p ≤ (ownedBatchLoop f batches c p).2.1 ∧
      (ownedBatchLoop f batches c p).2.1 ≤ p + (ownedBatchLoop f batches c p).2.2 ∧
      (ownedBatchLoop f batches c p).2.1 + c ≤ (ownedBatchLoop f batches c p).1 + p ∧
      (ownedBatchLoop f batches c p).2.2 = (batches.map List.length).sum := by
  intro batches
  induction batches with
  | nil => intro c p; simp [ownedBatchLoop]; omega
  | cons batch rest ih =>
    intro c p
    simp only [ownedBatchLoop, List.map_cons, List.sum_cons]
    obtain ⟨f1, f2, f3⟩ := countStep_foldl_spec (batch.map fun repo => f repo.name) c p
    simp only [List.length_map] at f2
    obtain ⟨i1, i2, i3, i4⟩ :=
      ih ((batch.map fun repo => f repo.name).foldl countStep (c, p)).1
        ((batch.map fun repo => f repo.name).foldl countStep (c, p)).2
    refine ⟨by omega, by omega, by omega, by omega⟩

/-- Invariants of the organization-pass batch loop: the cap is respected,
queries never exceed the pending work, and each contribution carries at least
one commit. -/
theorem orgBatchLoop_spec (f : String → String → Nat) (m : Nat) :
    ∀ (batches : List (List (String × String))) (c p : Nat),
      p ≤ (orgBatchLoop f m batches c p).2.1 ∧
      (orgBatchLoop f m batches c p).2.1 ≤ max p m ∧
      (orgBatchLoop f m batches c p).2.2 ≤ (batches.map List.length).sum ∧
      (orgBatchLoop f m batches c p).2.1 + c ≤ (orgBatchLoop f m batches c p).1 + p := by
  intro batches
  induction batches with
  | nil => intro c p; simp [orgBatchLoop]; omega
  | cons batch rest ih =>
    intro c p
    by_cases hp : p < m
    · simp only [orgBatchLoop, if_pos hp, List.map_cons, List.sum_cons]
      obtain ⟨f1, f2, f3⟩ :=
        countStepCapped_foldl_spec m (batch.map fun pr => f pr.1 pr.2) c p
      obtain ⟨i1, i2, i3, i4⟩ :=
        ih ((batch.map fun pr => f pr.1 pr.2).foldl (countStepCapped m) (c, p)).1
          ((batch.map fun pr => f pr.1 pr.2).foldl (countStepCapped m) (c, p)).2
      refine ⟨by omega, by omega, by omega, by omega⟩
    · simp only [orgBatchLoop, if_neg hp]
      refine ⟨le_refl p, by omega, by omega, by omega⟩

/-- The `allOrgRepos` accumulation never grows past the cap (beyond what the
accumulator already holds). -/
theorem addOrgRepos_length (m : Nat) (since : Int) (ex : List String) (org : String) :
    ∀ (repos : List GitHubRepo) (acc : List (String × String)),
      (addOrgRepos m since ex org repos acc).length ≤ max acc.length m := by
  intro repos
  induction repos with
  | nil => intro acc; simp [addOrgRepos]
  | cons repo rest ih =>
    intro acc
    simp only [addOrgRepos]
    by_cases h1 : acc.length ≥ m
    · simp only [if_pos h1]
      omega
    · simp only [if_neg h1]
      by_cases h2 : repo.updated_at ≥ since ∧ ¬(ex.contains repo.name = true)
      · simp only [if_pos h2]
        have hx := ih (acc ++ [(org, repo.name)])
        simp only [List.length_append, List.length_cons, List.length_nil] at hx
        omega
      · simp only [if_neg h2]
        exact ih acc

/-- Bound on the whole `allOrgRepos` accumulation. -/
theorem buildAllOrgRepos_length (m : Nat) (since : Int) (ex : List String) :
    ∀ (rs : List (Option (String × List GitHubRepo))) (acc : List (String × String)),
      (buildAllOrgRepos m since ex rs acc).length ≤ max acc.length m := by
  intro rs
  induction rs with
  | nil => intro acc; simp [buildAllOrgRepos]
  | cons hd rest ih =>
    intro acc
    cases hd with
    | none => simpa [buildAllOrgRepos] using ih acc
    | some pr =>
      obtain ⟨org, repos⟩ := pr
      simp only [buildAllOrgRepos]
      have h1 := addOrgRepos_length m since ex org repos acc
      have h2 := ih (addOrgRepos m since ex org repos acc)
      omega

/-- The organization batch loop over a capped work list: at most `m`
contributing repositories, at most `m` queries, and contributions never
exceed commits. -/
theorem orgPassCore_spec (f : String → String → Nat) (m bs : Nat)
    (work : List (String × String)) (hw : work.length ≤ m) :
    (orgBatchLoop f m (chunks bs work) 0 0).2.1 ≤ m ∧
    (orgBatchLoop f m (chunks bs work) 0 0).2.2 ≤ m ∧
    (orgBatchLoop f m (chunks bs work) 0 0).2.1 ≤ (orgBatchLoop f m (chunks bs work) 0 0).1 := by
  obtain ⟨h1, h2, h3, h4⟩ := orgBatchLoop_spec f m (chunks bs work) 0 0
  have hs : ((chunks bs work).map List.length).sum = work.length := by
    simpa [chunks] using chunkAux_sum_lengths bs work []
  omega

/-- The owned batch loop over a work list of at most 20 repositories: at most
20 queries, contributions never exceed queries nor commits. -/
theorem ownedPassCore_spec (f : String → Nat) (bs : Nat) (work : List GitHubRepo)
    (hw : work.length ≤ 20) :
    (ownedBatchLoop f (chunks bs work) 0 0).2.2 ≤ 20 ∧
    (ownedBatchLoop f (chunks bs work) 0 0).2.1 ≤ (ownedBatchLoop f (chunks bs work) 0 0).2.2 ∧
    (ownedBatchLoop f (chunks bs work) 0 0).2.1 ≤ (ownedBatchLoop f (chunks bs work) 0 0).1 := by
  obtain ⟨h1, h2, h3, h4⟩ := ownedBatchLoop_spec f (chunks bs work) 0 0
  have hs : ((chunks bs work).map List.length).sum = work.length := by
    simpa [chunks] using chunkAux_sum_lengths bs work []
  omega

/-- Invariants of the owned pass of `getCommitCount`. -/
theorem ownedPass_spec (username : String) (since : Int) (config : Config)
    (env : ProviderEnv) :
    (ownedPass username since config env).2.2 ≤ 20 ∧
    (ownedPass username since config env).2.1 ≤ (ownedPass username since config env).2.2 ∧
    (ownedPass username since config env).2.1 ≤ (ownedPass username since config env).1 := by
  rcases henv : env.ownedRepos with msg | st | repos <;> simp only [ownedPass, henv]
  · simp
  · simp
  · exact ownedPassCore_spec _ _ _ (by rw [List.length_take]; omega)

/-- Invariants of `getOrgRepoCommits`. -/
theorem getOrgRepoCommits_spec (u : String) (config : Config) (since : Int)
    (maxRepos : Nat) (env : ProviderEnv) :
    (getOrgRepoCommits u config since maxRepos env).repos ≤ maxRepos ∧
    (getOrgRepoCommits u config since maxRepos env).queried ≤ maxRepos ∧
    (getOrgRepoCommits u config since maxRepos env).repos ≤
      (getOrgRepoCommits u config since maxRepos env).commits := by
  rcases henv : env.orgs with msg | st | orgs <;> simp only [getOrgRepoCommits, henv]
  · simp
  · simp
  · exact orgPassCore_spec _ maxRepos _ _
      (by simpa using buildAllOrgRepos_length maxRepos since config.excludeRepos _ [])

/-- Master bounds for one aggregation run: both query counters and both
contributing-repository counters obey the caps of the two passes, and every
contributing repository accounts for at least one counted commit. -/
theorem getCommitCount_bounds (username : String) (since : Int) (config : Config)
    (env : ProviderEnv) (r : AggResult)
    (h : getCommitCount username since config env = .ok r) :
    r.ownedQueried ≤ 20 ∧ r.owned ≤ r.ownedQueried ∧
    r.orgQueried + r.owned ≤ 20 ∧ r.org + r.owned ≤ 20 ∧
    r.owned + r.org ≤ r.commits := by
  obtain ⟨hop1, hop2, hop3⟩ := ownedPass_spec username since config env
  unfold getCommitCount at h
  rcases henv : env.ownedRepos with msg | st | repos <;> rw [henv] at h <;> dsimp only at h
  · exact Except.noConfusion h
  all_goals (
    obtain ⟨hog1, hog2, hog3⟩ := getOrgRepoCommits_spec username config since
      (20 - (ownedPass username since config env).2.1) env
    split at h
    next hc =>
      obtain ⟨-, hlt⟩ := hc
      injection h with h2
      subst h2
      refine ⟨?_, ?_, ?_, ?_, ?_⟩ <;> dsimp only <;> omega
    next hc =>
      injection h with h2
      subst h2
      refine ⟨?_, ?_, ?_, ?_, ?_⟩ <;> dsimp only <;> omega)

/-- Total number of commit-history queries recorded in an aggregation
outcome. -/
def totalQueried : Except String AggResult → Nat
  | .ok r => r.ownedQueried + r.orgQueried
  | .error _ => 0

/-- Claim C1, counterexample: with 20 recently-updated owned repositories
that all return zero qualifying commits (so no owned repository *contributes*)
and one organization repository, a single run issues 21 commit-history
queries — more than the claimed combined cap of 20.  The 20-repository cap
limits *contributing* repositories, not queried ones. -/
theorem C1_counterexample :
    totalQueried (getCommitCount "alice" 0 cfg20 env21) = 21 := by rfl

/-- Claim C1 (amended): a single run issues at most 20 owned-pass
commit-history queries, at most `20 − ownedContributing` organization-pass
queries, and hence at most 40 queries combined. -/
theorem C1_query_budget (username : String) (since : Int) (config : Config)
    (env : ProviderEnv) (r : AggResult)
    (h : getCommitCount username since config env = .ok r) :
    r.ownedQueried ≤ 20 ∧ r.orgQueried + r.owned ≤ 20 ∧
    r.ownedQueried + r.orgQueried ≤ 40 := by
  obtain ⟨h1, h2, h3, h4, h5⟩ := getCommitCount_bounds username since config env r h
  omega

/-- Witness for C1 on the concrete 21-query run. -/
theorem C1_witness :
    (⟨0, 0, 0, 20, 1⟩ : AggResult).ownedQueried ≤ 20 ∧
    (⟨0, 0, 0, 20, 1⟩ : AggResult).orgQueried + (⟨0, 0, 0, 20, 1⟩ : AggResult).owned ≤ 20 ∧
    (⟨0, 0, 0, 20, 1⟩ : AggResult).ownedQueried + (⟨0, 0, 0, 20, 1⟩ : AggResult).orgQueried ≤ 40 :=
  C1_query_budget "alice" 0 cfg20 env21 ⟨0, 0, 0, 20, 1⟩ (by rfl)

/-- Claim C10: every aggregation result has nonnegative source counters whose
sum is at most 20 and at most the total commit count (each contributing
repository was counted only with a strictly positive commit count). -/
theorem C10_result_invariants (username : String) (since : Int) (config : Config)
    (env : ProviderEnv) (r : AggResult)
    (h : getCommitCount username since config env = .ok r) :
    0 ≤ r.owned ∧ 0 ≤ r.org ∧ r.owned + r.org ≤ 20 ∧ r.owned + r.org ≤ r.commits := by
  obtain ⟨h1, h2, h3, h4, h5⟩ := getCommitCount_bounds username since config env r h
  exact ⟨Nat.zero_le _, Nat.zero_le _, by omega, h5⟩

/-- A provider on which the aggregation returns nonzero counters: two
contributing owned repositories, one contributing organization repository,
one qualifying commit each. -/
def envC : ProviderEnv :=
  ⟨.ok [⟨"a", 1⟩, ⟨"b", 1⟩, ⟨"c", -5⟩], .ok [⟨"orgx"⟩], fun _ => .ok [⟨"s", 1⟩],
   fun _ _ => .ok [⟨some "alice", "Alice", "alice@example.com", ["p1"]⟩]⟩

/-- Witness for C10 on a concrete run with result (3 commits, 2 owned, 1 org). -/
theorem C10_witness :
    0 ≤ (⟨3, 2, 1, 2, 1⟩ : AggResult).owned ∧ 0 ≤ (⟨3, 2, 1, 2, 1⟩ : AggResult).org ∧
    (⟨3, 2, 1, 2, 1⟩ : AggResult).owned + (⟨3, 2, 1, 2, 1⟩ : AggResult).org ≤ 20 ∧
    (⟨3, 2, 1, 2, 1⟩ : AggResult).owned + (⟨3, 2, 1, 2, 1⟩ : AggResult).org ≤
      (⟨3, 2, 1, 2, 1⟩ : AggResult).commits :=
  C10_result_invariants "alice" 0 cfg20 envC ⟨3, 2, 1, 2, 1⟩ (by rfl)

end AmIGenki
